import Mathlib

/-!
Verification of the retrieval core of the Agnos Health chat-forum RAG system
(`src/rag_system.py`): the text normalizer `AgnosRAG.preprocess_text`, the
index builder `AgnosRAG.build_index`, persistence (`save_index` / `load_index`),
the similarity ranker `AgnosRAG.search` and the answer composer
`AgnosHealthRAG.answer_question`.

Shallow-embedding conventions:
* Python strings are `String` (= lists of unicode code points, matching Python
  `len` / slicing semantics).
* The mutable `AgnosRAG` object becomes an explicit state record
  `AgnosRAG.State`; methods take and return states, and a raised exception is
  an explicit error value next to the state left behind by the partial
  mutation (Python exception semantics).
* numpy / scipy / sklearn floats become exact rationals.  Cosine similarity
  itself is irrational (it divides by square roots of the squared norms), so
  the embedding stores, for each document, the number
  `sign(dot) * dot^2 / (|q|^2 * |d|^2)` — the image of the cosine
  `dot / sqrt (|q|^2 * |d|^2)` under the strictly increasing injection
  `x ↦ sign x * x^2`.  This encoding preserves order, sign and equality of the
  similarity values exactly, which is all that any ranking behaviour of the
  source depends on (argsort comparisons, the `> 0` filter, and tie structure).
-/

/-! ## Character classes of the normalizer

`preprocess_text` uses two regular expressions: `\s+` (whitespace runs) and
`[^\w\s฀-๿.,!?\-]` (characters to strip).  We model Python's `\s`
by the six ASCII whitespace characters and `\w` by ASCII alphanumerics,
underscore and the Thai block U+0E00–U+0E7F (the scripts the program works
with; the explicit Thai range of the source regex is folded in). -/

/-- Python regex `\s` (ASCII fragment): space, tab, newline, carriage return,
vertical tab, form feed. -/
def isSpaceChar (c : Char) : Bool :=
  c == ' ' || c == '\t' || c == '\n' || c == '\r' || c == '\x0b' || c == '\x0c'

/-- The Thai unicode block `฀-๿` kept explicitly by the source regex. -/
def isThaiChar (c : Char) : Bool :=
  0xE00 ≤ c.toNat && c.toNat ≤ 0xE7F

/-- Python regex `\w` (for the scripts this program processes): ASCII
alphanumerics, underscore, and Thai characters. -/
def isWordCharPy (c : Char) : Bool :=
  c.isAlphanum || c == '_' || isThaiChar c

/-- The punctuation allow-list `.,!?-` of the strip regex. -/
def isKeptPunct (c : Char) : Bool :=
  c == '.' || c == ',' || c == '!' || c == '?' || c == '-'

/-- A character NOT matched by `[^\w\s฀-๿.,!?\-]`, i.e. one the
normalizer keeps instead of replacing by a space. -/
def keptChar (c : Char) : Bool :=
  isWordCharPy c || isSpaceChar c || isKeptPunct c

/-- Python `str.lower` on the character range the program processes: ASCII
letters are lowercased, Thai (caseless) and everything else is unchanged. -/
def pyLower (c : Char) : Char :=
  match c with
  | 'A' => 'a' | 'B' => 'b' | 'C' => 'c' | 'D' => 'd' | 'E' => 'e' | 'F' => 'f'
  | 'G' => 'g' | 'H' => 'h' | 'I' => 'i' | 'J' => 'j' | 'K' => 'k' | 'L' => 'l'
  | 'M' => 'm' | 'N' => 'n' | 'O' => 'o' | 'P' => 'p' | 'Q' => 'q' | 'R' => 'r'
  | 'S' => 's' | 'T' => 't' | 'U' => 'u' | 'V' => 'v' | 'W' => 'w' | 'X' => 'x'
  | 'Y' => 'y' | 'Z' => 'z'
  | c => c

/-! ## The normalizer pipeline on character lists -/

/-- One pass of `re.sub(r'\s+', ' ', text)`: every maximal run of whitespace
characters is replaced by a single space.  The flag records whether the
previous character belonged to a whitespace run already emitted. -/
def collapseAux : Bool → List Char → List Char
  | _, [] => []
  | prevWs, c :: cs =>
    if isSpaceChar c then
      (if prevWs then [] else [' ']) ++ collapseAux true cs
    else
      c :: collapseAux false cs

/-- `re.sub(r'\s+', ' ', text)`. -/
def collapseWs (l : List Char) : List Char := collapseAux false l

/-- `re.sub(r'[^\w\s฀-๿.,!?\-]', ' ', text)`: each disallowed
character is replaced by a space (the class matches one character at a time). -/
def replaceDisallowed (c : Char) : Char :=
  if keptChar c then c else ' '

/-- Drop leading whitespace. -/
def trimL (l : List Char) : List Char := l.dropWhile isSpaceChar

/-- Drop trailing whitespace. -/
def trimR (l : List Char) : List Char := (trimL l.reverse).reverse

/-- Python `str.strip()`. -/
def stripWs (l : List Char) : List Char := trimR (trimL l)

/-- `AgnosRAG.preprocess_text` (src/rag_system.py lines 105-113): empty input
short-circuits; otherwise collapse whitespace runs, replace disallowed
characters by spaces, strip, and lowercase. -/
def AgnosRAG.preprocess_text (text : String) : String :=
  if text = "" then ""
  else String.mk (((stripWs ((collapseWs text.data).map replaceDisallowed)).map pyLower))

/-! ## The term-weighted vectorizer

`build_index` fits an sklearn `TfidfVectorizer(max_features=5000, min_df=1,
max_df=0.8, ngram_range=(1,2))` on the surviving normalized texts and
`search` projects the query through the same fitted transform.  The
embedding reproduces:

* tokenization (`token_pattern=r"(?u)\b\w\w+\b"`, lowercasing), unigram and
  bigram extraction, and the fitted vocabulary (document-frequency cap
  `max_df=0.8`, `min_df=1` vacuous for terms drawn from the corpus, feature
  cap 5000 with a deterministic frequency tie-break, per the design note);
* sklearn's fit-time error paths for this configuration, in the order the
  library checks them: `ValueError("empty vocabulary ...")` when no term at
  all is extracted from the corpus; `ValueError("max_df corresponds to <
  documents than min_df")` when `max_df * n < min_df` — with `min_df = 1`
  and `max_df = 0.8`, exactly when the corpus fitted has one document; and
  `ValueError("After pruning, no terms remain ...")` when the `max_df` cut
  removes every term (e.g. a corpus of identical documents);
* weights: the entry for a term is its raw term frequency.  The idf factor
  `log((1+N)/(1+df)) + 1` (a strictly positive per-column scale) and the L2
  row normalization (a strictly positive per-row scale) are irrational and
  are not reproduced: no claim verified in this file depends on the
  magnitudes of the weights — only on which entries are zero, on ties
  between identical documents, and on the row count — and those are
  invariant under strictly positive rescaling.
-/

/-- The exceptions the retrieval core raises or lets escape.  The first three
are named after the spec taxonomy: `emptyCorpus` is
`ValueError("No valid documents to index")`, `indexNotBuilt` is
`ValueError("Index not built. Call build_index() first.")`, `fileNotFound`
is the `FileNotFoundError` escaping `open()` in `load_index`.  The last three
are sklearn's fit-time `ValueError`s escaping `build_index` through
`fit_transform`: `emptyVocabulary` is `"empty vocabulary; perhaps the
documents only contain stop words"`, `maxDfConflict` is `"max_df corresponds
to < documents than min_df"`, `noTermsAfterPruning` is `"After pruning, no
terms remain. Try a lower min_df or a higher max_df."`. -/
inductive PyError where
  | emptyCorpus
  | indexNotBuilt
  | fileNotFound
  | emptyVocabulary
  | maxDfConflict
  | noTermsAfterPruning
deriving DecidableEq

/-- Maximal runs of `\w` characters of a character list (the accumulator holds
the current run reversed), keeping runs in input order. -/
def wordRunsAux : List Char → List Char → List (List Char)
  | acc, [] => if acc.isEmpty then [] else [acc.reverse]
  | acc, c :: cs =>
    if isWordCharPy c then wordRunsAux (c :: acc) cs
    else (if acc.isEmpty then [] else [acc.reverse]) ++ wordRunsAux [] cs

/-- sklearn tokenization: lowercase, then the tokens are the maximal
word-character runs of length at least 2 (`token_pattern=r"(?u)\b\w\w+\b"`). -/
def tokenizeSk (s : String) : List String :=
  ((wordRunsAux [] (s.data.map pyLower)).filter (fun r => 2 ≤ r.length)).map String.mk

/-- The terms (features) sklearn extracts from one text with
`ngram_range=(1,2)`: the unigrams followed by the bigrams (adjacent token
pairs joined by one space). -/
def termsOf (s : String) : List String :=
  let toks := tokenizeSk s
  toks ++ (toks.zip toks.tail).map (fun p => p.1 ++ " " ++ p.2)

/-- Duplicate removal keeping first occurrences (a deterministic vocabulary
order; column order never affects the dot products below). -/
def dedupFirst : List String → List String
  | [] => []
  | t :: ts => t :: (dedupFirst ts).filter (fun u => u ≠ t)

/-- A fitted vectorizer: the learned vocabulary (term per column). -/
structure Vectorizer where
  vocab : List String
deriving DecidableEq

/-- Total number of occurrences of a term across a tokenized corpus. -/
def corpusCount (termss : List (List String)) (t : String) : ℕ :=
  (termss.map (fun ts => ts.count t)).sum

/-- All distinct unigram/bigram terms of a corpus, in first-occurrence
order (the counting vocabulary before any pruning). -/
def allTermsOf (texts : List String) : List String :=
  dedupFirst (texts.map termsOf).flatten

/-- Document frequency of a term: in how many of the texts it occurs. -/
def dfOf (texts : List String) (t : String) : ℕ :=
  (texts.map termsOf).countP (fun ts => t ∈ ts)

/-- The vocabulary surviving the document-frequency cut: terms with
`df ≤ max_df * n = 0.8 * n`, i.e. `5 * df ≤ 4 * n` over the integers
(`min_df = 1` never drops a term that occurs in the corpus). -/
def dfKept (texts : List String) : List String :=
  (allTermsOf texts).filter (fun t => 5 * dfOf texts t ≤ 4 * texts.length)

/-- `TfidfVectorizer.fit_transform`'s vocabulary fitting, with sklearn's
fit-time error paths in the order the library checks them: raise if no term
at all was extracted (`empty vocabulary`); raise if
`max_df * n < min_df`, i.e. `0.8 * n < 1`, i.e. `4 * n < 5` (the conflict
check, hit exactly when one document is fitted); raise if the
document-frequency cut leaves no term (`After pruning, no terms remain`);
otherwise cap at `max_features = 5000` keeping the highest total-frequency
terms (deterministic tie-break by term, per the spec's determinism
requirement). -/
def Vectorizer.fit (texts : List String) : Except PyError Vectorizer :=
  if (allTermsOf texts).isEmpty then .error .emptyVocabulary
  else if 4 * texts.length < 5 then .error .maxDfConflict
  else if (dfKept texts).isEmpty then .error .noTermsAfterPruning
  else if (dfKept texts).length ≤ 5000 then .ok ⟨dfKept texts⟩
  else .ok ⟨((dfKept texts).mergeSort (fun a b =>
    decide (corpusCount (texts.map termsOf) b < corpusCount (texts.map termsOf) a ∨
      (corpusCount (texts.map termsOf) a = corpusCount (texts.map termsOf) b ∧ a ≤ b)))).take 5000⟩

/-- `transform`: the (term-frequency) vector of a text over the fitted
vocabulary; out-of-vocabulary terms are dropped. -/
def Vectorizer.transform (v : Vectorizer) (s : String) : List ℚ :=
  v.vocab.map (fun t => ((termsOf s).count t : ℚ))

/-! ## Similarity values -/

/-- Dot product of two rational vectors. -/
def dotQ (xs ys : List ℚ) : ℚ := ((xs.zip ys).map (fun p => p.1 * p.2)).sum

/-- The cosine similarity of `q` and `d`, stored through the strictly
increasing injection `x ↦ sign x * x^2` (see the file header): the cosine is
`dot / sqrt (|q|^2 * |d|^2)`, so its image is `sign dot * dot^2 / (|q|^2 * |d|^2)`.
A zero vector has similarity 0 (sklearn's `cosine_similarity` convention). -/
def cosineSimVal (q d : List ℚ) : ℚ :=
  let num := dotQ q d
  let nq := dotQ q q
  let nd := dotQ d d
  if nq = 0 ∨ nd = 0 then 0
  else if num < 0 then -(num ^ 2) / (nq * nd) else num ^ 2 / (nq * nd)

/-! ## Data model -/

/-- A raw scraped document: the `{url, title, content}` records consumed by
`build_index` (`doc.get(...)` with `''` defaults makes the fields total). -/
structure RawDocument where
  url : String
  title : String
  content : String
deriving DecidableEq

/-- The per-document metadata record stored by `build_index`. -/
structure DocMeta where
  url : String
  title : String
  original_content : String
deriving DecidableEq

/-- The state of an `AgnosRAG` object (fields in `__init__` order);
`none` is Python `None`. -/
structure AgnosRAG.State where
  vectorizer : Option Vectorizer
  tfidf_matrix : Option (List (List ℚ))
  documents : List String
  metadata : List DocMeta
deriving DecidableEq

/-- `AgnosRAG.__init__`. -/
def AgnosRAG.initState : AgnosRAG.State :=
  { vectorizer := none, tfidf_matrix := none, documents := [], metadata := [] }

/-- One search hit: the dict `{score, content, metadata}` built by `search`.
The source identifies the document by position (`self.documents[idx]`,
`self.metadata[idx]`); the embedding additionally records that position
`docIndex` itself so ordering properties can be stated. -/
structure SearchResult where
  score : ℚ
  content : String
  metadata : DocMeta
  docIndex : ℕ
deriving DecidableEq

/-! ## Index building -/

/-- `f"{doc.get('title', '')} {doc.get('content', '')}"`. -/
def combinedText (d : RawDocument) : String := d.title ++ " " ++ d.content

/-- The normalized combined text of a raw document. -/
def cleanedOf (d : RawDocument) : String := AgnosRAG.preprocess_text (combinedText d)

/-- The minimum-length filter of `build_index`: keep a document iff its
normalized combined text is longer than 50 characters. -/
def survives (d : RawDocument) : Bool := decide (50 < (cleanedOf d).length)

/-- The metadata record `build_index` stores for a kept document
(`original_content` is the first 1000 characters of the raw content). -/
def metaOf (d : RawDocument) : DocMeta :=
  { url := d.url, title := d.title, original_content := d.content.take 1000 }

/-- The documents surviving the length filter, in input order
(the loop appends under the filter condition). -/
def keptDocs (docs : List RawDocument) : List RawDocument := docs.filter survives

/-- The normalized texts of the surviving documents (`texts`, which the loop
keeps identical to `self.documents`). -/
def keptTexts (docs : List RawDocument) : List String := (keptDocs docs).map cleanedOf

/-- `AgnosRAG.build_index` (lines 115-150).  The object's `documents` and
`metadata` are reassigned to the filtered corpus; if no text survives the
length filter, `ValueError("No valid documents to index")` is raised with the
lists already cleared and the old vectorizer/matrix untouched (the exception
escapes after the reassignment).  Otherwise `fit_transform` runs: if the
vectorizer fit raises, the exception escapes with the new document/metadata
lists installed and the old matrix untouched (the source assigns the fresh,
still unfitted `TfidfVectorizer` object at line 141 before the raise; a
fitted-vocabulary model cannot represent that unfitted object, so the
embedding leaves the prior `vectorizer` value — a deviation confined to the
`vectorizer` field of the residual state on this error path, which no claim
observes).  On success the fitted vectorizer and the term-weight matrix
(one row per surviving text, in order) are installed. -/
def AgnosRAG.build_index (st : AgnosRAG.State) (docs : List RawDocument) :
    AgnosRAG.State × Option PyError :=
  if (keptTexts docs).isEmpty then
    ({ st with documents := [], metadata := [] }, some .emptyCorpus)
  else
    match Vectorizer.fit (keptTexts docs) with
    | .error e =>
      ({ st with documents := keptTexts docs,
                 metadata := (keptDocs docs).map metaOf }, some e)
    | .ok vz =>
      ({ vectorizer := some vz,
         tfidf_matrix := some ((keptTexts docs).map vz.transform),
         documents := keptTexts docs,
         metadata := (keptDocs docs).map metaOf }, none)

/-! ## Persistence -/

/-- The three pickle files `<path>_vectorizer.pkl`, `<path>_matrix.pkl`,
`<path>_metadata.pkl` at one index path.  The outer `Option` is file
existence; the payload is whatever was pickled (for the first two files a
possibly-`None` field of the saving object, for the third the dict
`{'documents': ..., 'metadata': ...}`). -/
structure SavedIndex where
  vectorizerFile : Option (Option Vectorizer)
  matrixFile : Option (Option (List (List ℚ)))
  metadataFile : Option (List String × List DocMeta)
deriving DecidableEq

/-- `AgnosRAG.save_index` (lines 152-164): writes the three files. -/
def AgnosRAG.save_index (st : AgnosRAG.State) : SavedIndex :=
  { vectorizerFile := some st.vectorizer,
    matrixFile := some st.tfidf_matrix,
    metadataFile := some (st.documents, st.metadata) }

/-- `AgnosRAG.load_index` (lines 166-177): opens and unpickles the three
files in order, assigning each into the object as it is read.  A missing
file raises `FileNotFoundError` at that point, leaving the assignments made
so far in place; no consistency check of any kind is performed on the loaded
artifacts. -/
def AgnosRAG.load_index (st : AgnosRAG.State) (fs : SavedIndex) :
    AgnosRAG.State × Option PyError :=
  match fs.vectorizerFile with
  | none => (st, some .fileNotFound)
  | some v =>
    let st1 := { st with vectorizer := v }
    match fs.matrixFile with
    | none => (st1, some .fileNotFound)
    | some m =>
      let st2 := { st1 with tfidf_matrix := m }
      match fs.metadataFile with
      | none => (st2, some .fileNotFound)
      | some payload =>
        ({ st2 with documents := payload.1, metadata := payload.2 }, none)

/-! ## The similarity ranker -/

/-- `similarities[i]` (numpy indexing; the embedding totalizes with default 0,
which no in-range access ever hits). -/
def simValAt (sims : List ℚ) (i : ℕ) : ℚ := sims.getD i 0

/-- The order the embedded argsort uses: ascending by value, with the
embedding's deterministic tie resolution by original position (see
`argsortPy` on how this relates to numpy). -/
def argsortRel (sims : List ℚ) (i j : ℕ) : Prop :=
  simValAt sims i < simValAt sims j ∨ (simValAt sims i = simValAt sims j ∧ i ≤ j)

instance instDecArgsortRel (sims : List ℚ) : DecidableRel (argsortRel sims) := fun i j =>
  inferInstanceAs (Decidable (simValAt sims i < simValAt sims j ∨
    (simValAt sims i = simValAt sims j ∧ i ≤ j)))

/-- `similarities.argsort()`: a permutation of `0 .. n-1` sorted ascending
by similarity value.  numpy guarantees only the value order: its default
quicksort is insertion sort (stable) below its ~16-element threshold and
unstable above, so the order of equal values is not a program guarantee in
general.  The embedding realizes the one deterministic sorted permutation
with index-ascending ties, which coincides with numpy exactly in the
small-array insertion-sort regime — the regime of every concrete instance
in this file; the universal theorems below use only the ascending-by-value
sortedness, never the tie resolution. -/
def argsortPy (sims : List ℚ) : List ℕ :=
  (List.range sims.length).insertionSort (argsortRel sims)

/-- Python slice `a[-k:]`: the last `k` elements — except that `k = 0` gives
`a[0:]`, the whole list. -/
def takeLastPy {α : Type} (l : List α) (k : ℕ) : List α :=
  if k = 0 then l else l.drop (l.length - k)

/-- Lines 193-205 of `search`: `top_indices = similarities.argsort()[-k:][::-1]`,
then keep, in that order, the indices with positive similarity, building the
result dicts from `self.documents` and `self.metadata`. -/
def selectTopK (sims : List ℚ) (k : ℕ) (docs : List String) (md : List DocMeta) :
    List SearchResult :=
  let top := (takeLastPy (argsortPy sims) k).reverse
  (top.filter (fun i => decide (0 < simValAt sims i))).map
    (fun i => { score := simValAt sims i,
                content := docs.getD i "",
                metadata := md.getD i ⟨"", "", ""⟩,
                docIndex := i })

/-- `AgnosRAG.search` (lines 179-205): raise `ValueError` if the vectorizer
or the matrix is `None`; otherwise normalize the query, project it through
the fitted vectorizer, score every row by cosine similarity, and select the
top `k`. -/
def AgnosRAG.search (st : AgnosRAG.State) (query : String) (k : ℕ) :
    Except PyError (List SearchResult) :=
  match st.vectorizer, st.tfidf_matrix with
  | some vz, some mat =>
    let qv := vz.transform (AgnosRAG.preprocess_text query)
    let sims := mat.map (fun row => cosineSimVal qv row)
    .ok (selectTopK sims k st.documents st.metadata)
  | _, _ => .error .indexNotBuilt

/-! ## The answer composer -/

/-- One entry of the `sources` list of `answer_question`. -/
structure Source where
  title : String
  url : String
  score : ℚ
  content_snippet : String
deriving DecidableEq

/-- The dict returned by `answer_question`. -/
structure Answer where
  answer : String
  sources : List Source
  confidence : ℚ
deriving DecidableEq

/-- The fixed "no information found" answer text. -/
def noInfoText : String :=
  "ขออภัย ไม่พบข้อมูลที่เกี่ยวข้องในฟอรัม Agnos Health\n\nกรุณาลองใช้คำถามอื่นหรือถามคำถามให้ละเอียดมากขึ้น"

/-- The fixed prefix of a composed answer. -/
def answerHead : String := "จากข้อมูลในฟอรัม Agnos Health:\n\n"

/-- The fixed disclaimer suffix of a composed answer. -/
def answerTail : String :=
  "\n\nนี่เป็นข้อมูลจากกระทู้ในฟอรัม กรุณาปรึกษาแพทย์สำหรับการวินิจฉัยและการรักษาที่ถูกต้อง"

/-- The source entry composed from one search result: title, url, score and
the first 300 characters of the stored snippet plus an ellipsis marker. -/
def mkSource (r : SearchResult) : Source :=
  { title := r.metadata.title,
    url := r.metadata.url,
    score := r.score,
    content_snippet := r.metadata.original_content.take 300 ++ "..." }

/-- `AgnosHealthRAG.answer_question` (lines 211-252): search with `k`; an
empty result list yields the fixed no-information answer with confidence 0
and no sources; otherwise the top result's content (truncated to 800
characters with an ellipsis marker if longer) is framed by the fixed texts,
the sources list maps over all results in order, and the confidence is the
top result's score.  An exception from `search` propagates. -/
def AgnosHealthRAG.answer_question (st : AgnosRAG.State) (question : String) (k : ℕ) :
    Except PyError Answer :=
  match AgnosRAG.search st question k with
  | .error e => .error e
  | .ok results =>
    match results with
    | [] => .ok { answer := noInfoText, sources := [], confidence := 0 }
    | best :: _ =>
      let content := best.content
      let content := if 800 < content.length then content.take 800 ++ "..." else content
      .ok { answer := answerHead ++ content ++ answerTail,
            sources := results.map mkSource,
            confidence := best.score }

/-! ## Ranking order lemmas -/

/-- The strict descending order the MODEL's result sequence obeys (the
embedded argsort's index-ascending tie resolution, reversed).  Only its
score component is a program guarantee — numpy fixes no tie order in
general — and the claim-level theorem extracts exactly that component. -/
def resultDescends (a b : SearchResult) : Prop :=
  b.score < a.score ∨ (a.score = b.score ∧ b.docIndex < a.docIndex)

instance instDecResultDescends : DecidableRel resultDescends := fun a b =>
  inferInstanceAs (Decidable (b.score < a.score ∨ (a.score = b.score ∧ b.docIndex < a.docIndex)))

instance instTotalArgsortRel (sims : List ℚ) : IsTotal ℕ (argsortRel sims) := by
  constructor
  intro i j
  rcases lt_trichotomy (simValAt sims i) (simValAt sims j) with h | h | h
  · exact .inl (.inl h)
  · rcases Nat.le_total i j with hij | hij
    · exact .inl (.inr ⟨h, hij⟩)
    · exact .inr (.inr ⟨h.symm, hij⟩)
  · exact .inr (.inl h)

instance instTransArgsortRel (sims : List ℚ) : IsTrans ℕ (argsortRel sims) := by
  constructor
  intro i j l hij hjl
  rcases hij with h1 | ⟨h1, h1'⟩ <;> rcases hjl with h2 | ⟨h2, h2'⟩
  · exact .inl (h1.trans h2)
  · exact .inl (h2 ▸ h1)
  · exact .inl (h1 ▸ h2)
  · exact .inr ⟨h1.trans h2, h1'.trans h2'⟩

/-- `argsort` is sorted for the ascending value-then-index order. -/
theorem argsortPy_sorted (sims : List ℚ) :
    List.Pairwise (argsortRel sims) (argsortPy sims) :=
  List.sorted_insertionSort (argsortRel sims) (List.range sims.length)

/-- `argsort` lists each index once. -/
theorem argsortPy_nodup (sims : List ℚ) : (argsortPy sims).Nodup :=
  ((List.perm_insertionSort (argsortRel sims) (List.range sims.length)).nodup_iff).mpr
    (List.nodup_range sims.length)

/-- Along `argsort`, the value strictly increases or the index strictly
increases at equal value. -/
theorem argsortPy_pairwise_strict (sims : List ℚ) :
    List.Pairwise (fun i j => simValAt sims i < simValAt sims j ∨
      (simValAt sims i = simValAt sims j ∧ i < j)) (argsortPy sims) := by
  refine ((argsortPy_sorted sims).and (argsortPy_nodup sims)).imp ?_
  rintro i j ⟨h | ⟨he, hle⟩, hne⟩
  · exact .inl h
  · exact .inr ⟨he, lt_of_le_of_ne hle hne⟩

/-- `takeLastPy` keeps a sublist. -/
theorem takeLastPy_sublist {α : Type} (l : List α) (k : ℕ) :
    (takeLastPy l k).Sublist l := by
  unfold takeLastPy
  split
  · exact List.Sublist.refl l
  · exact List.drop_sublist _ l

/-- The result sequence of the selection step is strictly descending:
by score, ties by document index descending. -/
theorem selectTopK_pairwise (sims : List ℚ) (k : ℕ) (docs : List String)
    (md : List DocMeta) :
    List.Pairwise resultDescends (selectTopK sims k docs md) := by
  unfold selectTopK
  rw [List.pairwise_map]
  refine List.Pairwise.sublist (List.filter_sublist _) ?_
  rw [List.pairwise_reverse]
  refine ((argsortPy_pairwise_strict sims).sublist (takeLastPy_sublist _ k)).imp ?_
  rintro i j (h | ⟨he, hlt⟩)
  · exact .inl h
  · exact .inr ⟨he.symm, hlt⟩

/-- Every selected result has strictly positive score. -/
theorem selectTopK_pos (sims : List ℚ) (k : ℕ) (docs : List String)
    (md : List DocMeta) :
    ∀ r ∈ selectTopK sims k docs md, 0 < r.score := by
  intro r hr
  unfold selectTopK at hr
  rcases List.mem_map.mp hr with ⟨i, hi, rfl⟩
  have := List.of_mem_filter hi
  simpa using of_decide_eq_true this

/-! ## Normalizer lemmas -/

/-- Two adjacent characters are not both whitespace (the "no whitespace run
longer than one space" property, stated pairwise along the list). -/
def noTwoWS (a b : Char) : Prop :=
  ¬(isSpaceChar a = true ∧ isSpaceChar b = true)

instance instDecNoTwoWS : DecidableRel noTwoWS := fun a b =>
  inferInstanceAs (Decidable (¬(isSpaceChar a = true ∧ isSpaceChar b = true)))

theorem pyLower_space (c : Char) : isSpaceChar (pyLower c) = isSpaceChar c := by
  unfold pyLower; split <;> rfl

theorem pyLower_kept {c : Char} (h : keptChar c = true) : keptChar (pyLower c) = true := by
  unfold pyLower; split <;> first | rfl | exact h

theorem pyLower_idem (c : Char) : pyLower (pyLower c) = pyLower c := by
  conv_rhs => unfold pyLower
  split
  all_goals try decide
  have h : pyLower c = c := by unfold pyLower; split <;> simp_all
  rw [h, h]

/-- The first character `collapseAux` emits after an already-collapsed
whitespace run is not whitespace. -/
theorem collapseAux_head_true :
    ∀ l : List Char, ∀ c ∈ (collapseAux true l).head?, isSpaceChar c = false := by
  intro l
  induction l with
  | nil => intro c hc; simp [collapseAux] at hc
  | cons a t ih =>
    intro c hc
    by_cases ha : isSpaceChar a
    · rw [collapseAux, if_pos ha] at hc
      exact ih c (by simpa using hc)
    · rw [collapseAux, if_neg ha] at hc
      simp only [List.head?_cons, Option.mem_def, Option.some.injEq] at hc
      subst hc
      simpa using ha

/-- `collapseAux` output has no two adjacent whitespace characters. -/
theorem collapseAux_chain' (l : List Char) :
    ∀ b, List.Chain' noTwoWS (collapseAux b l) := by
  induction l with
  | nil => intro b; simp [collapseAux]
  | cons a t ih =>
    intro b
    by_cases ha : isSpaceChar a
    · cases b with
      | true =>
        rw [collapseAux, if_pos ha]
        simpa using ih true
      | false =>
        rw [collapseAux, if_pos ha]
        show List.Chain' noTwoWS (' ' :: collapseAux true t)
        rw [List.chain'_cons']
        refine ⟨?_, ih true⟩
        intro y hy
        have := collapseAux_head_true t y hy
        exact fun hk => by simp [this] at hk
    · rw [collapseAux, if_neg ha]
      rw [List.chain'_cons']
      refine ⟨?_, ih false⟩
      intro y hy
      exact fun hk => by simp [hk.1] at ha

/-- Characters of the collapsed list come from the input or are the space
emitted for a run. -/
theorem collapseAux_mem {c : Char} :
    ∀ (l : List Char) (b : Bool), c ∈ collapseAux b l → c ∈ l ∨ c = ' ' := by
  intro l
  induction l with
  | nil => intro b hc; simp [collapseAux] at hc
  | cons a t ih =>
    intro b hc
    by_cases ha : isSpaceChar a
    · rw [collapseAux, if_pos ha] at hc
      rcases List.mem_append.mp hc with h | h
      · split at h
        · simp at h
        · simp at h; exact .inr h
      · rcases ih true h with h' | h'
        · exact .inl (List.mem_cons_of_mem a h')
        · exact .inr h'
    · rw [collapseAux, if_neg ha] at hc
      rcases List.mem_cons.mp hc with h | h
      · exact .inl (h ▸ List.mem_cons_self a t)
      · rcases ih false h with h' | h'
        · exact .inl (List.mem_cons_of_mem a h')
        · exact .inr h'

/-- Every whitespace character of the collapsed list is a plain space. -/
theorem collapseAux_onlySp {c : Char} :
    ∀ (l : List Char) (b : Bool), c ∈ collapseAux b l → isSpaceChar c = true → c = ' ' := by
  intro l
  induction l with
  | nil => intro b hc; simp [collapseAux] at hc
  | cons a t ih =>
    intro b hc hsp
    by_cases ha : isSpaceChar a
    · rw [collapseAux, if_pos ha] at hc
      rcases List.mem_append.mp hc with h | h
      · split at h
        · simp at h
        · simpa using h
      · exact ih true h hsp
    · rw [collapseAux, if_neg ha] at hc
      rcases List.mem_cons.mp hc with h | h
      · rw [h] at hsp; rw [hsp] at ha; simp at ha
      · exact ih false h hsp

/-- A list already free of double whitespace whose whitespace characters are
all plain spaces is a fixed point of whitespace collapsing. -/
theorem collapseAux_eq_self :
    ∀ l : List Char, List.Chain' noTwoWS l → (∀ c ∈ l, isSpaceChar c = true → c = ' ') →
      collapseAux false l = l ∧
        ((∀ c ∈ l.head?, isSpaceChar c = false) → collapseAux true l = l) := by
  intro l
  induction l with
  | nil => intro _ _; exact ⟨rfl, fun _ => rfl⟩
  | cons a t ih =>
    intro hch hsp
    have hch' := List.chain'_cons'.mp hch
    have iht := ih hch'.2 (fun c hc => hsp c (List.mem_cons_of_mem a hc))
    constructor
    · by_cases ha : isSpaceChar a
      · rw [collapseAux, if_pos ha]
        have haeq : a = ' ' := hsp a (List.mem_cons_self a t) ha
        have ht : collapseAux true t = t := by
          refine iht.2 ?_
          intro c hc
          have := hch'.1 c hc
          unfold noTwoWS at this
          by_contra hcs
          exact this ⟨ha, by simpa using hcs⟩
        simp [ht, haeq]
      · rw [collapseAux, if_neg ha]
        rw [iht.1]
    · intro hhead
      have ha : isSpaceChar a = false := by simpa using hhead a
      rw [collapseAux, if_neg (by simp [ha])]
      rw [iht.1]

theorem head?_dropWhile {α : Type} (p : α → Bool) :
    ∀ l : List α, ∀ c ∈ (l.dropWhile p).head?, p c = false := by
  intro l
  induction l with
  | nil => intro c hc; simp at hc
  | cons a t ih =>
    intro c hc
    by_cases ha : p a
    · rw [List.dropWhile_cons_of_pos ha] at hc
      exact ih c hc
    · rw [List.dropWhile_cons_of_neg ha] at hc
      simp only [List.head?_cons, Option.mem_def, Option.some.injEq] at hc
      subst hc
      simpa using ha

theorem dropWhile_eq_self_of_head {α : Type} (p : α → Bool) (l : List α)
    (h : ∀ c ∈ l.head?, p c = false) : l.dropWhile p = l := by
  cases l with
  | nil => rfl
  | cons a t =>
    have := h a (by simp)
    rw [List.dropWhile_cons_of_neg (by simp [this])]

/-- The right-stripped list is an explicit prefix of the original. -/
theorem trimR_append (l : List Char) :
    trimR l ++ (l.reverse.takeWhile isSpaceChar).reverse = l := by
  have h := List.takeWhile_append_dropWhile isSpaceChar l.reverse
  have h2 := congrArg List.reverse h
  rw [List.reverse_append, List.reverse_reverse] at h2
  exact h2

theorem trimL_subset (l : List Char) : ∀ c ∈ trimL l, c ∈ l := by
  intro c hc
  have h := List.takeWhile_append_dropWhile isSpaceChar l
  rw [← h]
  exact List.mem_append.mpr (.inr hc)

theorem trimR_subset (l : List Char) : ∀ c ∈ trimR l, c ∈ l := by
  intro c hc
  rw [← trimR_append l]
  exact List.mem_append.mpr (.inl hc)

theorem stripWs_subset (l : List Char) : ∀ c ∈ stripWs l, c ∈ l :=
  fun c hc => trimL_subset l c (trimR_subset (trimL l) c hc)

theorem chain'_dropWhile {R : Char → Char → Prop} {l : List Char} (p : Char → Bool)
    (h : List.Chain' R l) : List.Chain' R (l.dropWhile p) := by
  rw [← List.takeWhile_append_dropWhile p l] at h
  exact (List.chain'_append.mp h).2.1

theorem noTwoWS_symm {a b : Char} (h : noTwoWS a b) : noTwoWS b a :=
  fun hk => h ⟨hk.2, hk.1⟩

theorem chain'_reverse_noTwoWS {l : List Char} (h : List.Chain' noTwoWS l) :
    List.Chain' noTwoWS l.reverse :=
  List.chain'_reverse.mpr (h.imp fun _ _ hab => noTwoWS_symm hab)

theorem chain'_trimR {l : List Char} (h : List.Chain' noTwoWS l) :
    List.Chain' noTwoWS (trimR l) :=
  chain'_reverse_noTwoWS (chain'_dropWhile isSpaceChar (chain'_reverse_noTwoWS h))

theorem chain'_stripWs {l : List Char} (h : List.Chain' noTwoWS l) :
    List.Chain' noTwoWS (stripWs l) :=
  chain'_trimR (chain'_dropWhile isSpaceChar h)

theorem stripWs_rev_head (l : List Char) :
    ∀ c ∈ (stripWs l).reverse.head?, isSpaceChar c = false := by
  intro c hc
  unfold stripWs trimR at hc
  rw [List.reverse_reverse] at hc
  exact head?_dropWhile isSpaceChar _ c hc

theorem stripWs_head (l : List Char) :
    ∀ c ∈ (stripWs l).head?, isSpaceChar c = false := by
  intro c hc
  unfold stripWs at hc
  cases htr : trimR (trimL l) with
  | nil => rw [htr] at hc; simp at hc
  | cons a t =>
    rw [htr] at hc
    simp only [List.head?_cons, Option.mem_def, Option.some.injEq] at hc
    subst hc
    have hdec := trimR_append (trimL l)
    rw [htr] at hdec
    have hhead : (trimL l).head? = some a := by
      rw [← hdec]; rfl
    exact head?_dropWhile isSpaceChar l a
      (by show a ∈ (trimL l).head?; rw [hhead]; rfl)

theorem stripWs_eq_self (l : List Char)
    (hh : ∀ c ∈ l.head?, isSpaceChar c = false)
    (hr : ∀ c ∈ l.reverse.head?, isSpaceChar c = false) : stripWs l = l := by
  have h1 : trimL l = l := dropWhile_eq_self_of_head isSpaceChar l hh
  have h2 : trimL l.reverse = l.reverse := dropWhile_eq_self_of_head isSpaceChar l.reverse hr
  unfold stripWs trimR
  rw [h1, h2, List.reverse_reverse]

/-! ## The normalizer pipeline on kept inputs -/

theorem replaceDisallowed_eq_self {c : Char} (h : keptChar c = true) :
    replaceDisallowed c = c := if_pos h

theorem map_replace_eq_self {l : List Char} (h : ∀ c ∈ l, keptChar c = true) :
    l.map replaceDisallowed = l := by
  induction l with
  | nil => rfl
  | cons a t ih =>
    rw [List.map_cons, replaceDisallowed_eq_self (h a (List.mem_cons_self a t)),
      ih (fun c hc => h c (List.mem_cons_of_mem a hc))]

/-- The space character is kept (it is whitespace). -/
theorem keptChar_space : keptChar ' ' = true := by decide

/-- Unfolding of `preprocess_text` on a non-empty string. -/
theorem preprocess_data (s : String) (hs : ¬ s = "") :
    (AgnosRAG.preprocess_text s).data =
      (stripWs ((collapseWs s.data).map replaceDisallowed)).map pyLower := by
  unfold AgnosRAG.preprocess_text
  rw [if_neg hs]

/-- On an input whose characters are all kept by the strip regex, the
replacement step is the identity. -/
theorem preprocess_data_of_kept (s : String) (hk : ∀ c ∈ s.data, keptChar c = true)
    (hs : ¬ s = "") :
    (AgnosRAG.preprocess_text s).data = (stripWs (collapseWs s.data)).map pyLower := by
  rw [preprocess_data s hs, map_replace_eq_self]
  intro c hc
  rcases collapseAux_mem s.data false hc with h | h
  · exact hk c h
  · rw [h]; exact keptChar_space

theorem map_eq_self_of_fixed {α : Type} (f : α → α) :
    ∀ l : List α, (∀ c ∈ l, f c = c) → l.map f = l := by
  intro l
  induction l with
  | nil => intro _; rfl
  | cons a t ih =>
    intro h
    rw [List.map_cons, h a (List.mem_cons_self a t),
      ih (fun c hc => h c (List.mem_cons_of_mem a hc))]

/-- On an all-kept input the normalized output has no two adjacent
whitespace characters. -/
theorem preprocess_chain' (s : String) (hk : ∀ c ∈ s.data, keptChar c = true) :
    List.Chain' noTwoWS (AgnosRAG.preprocess_text s).data := by
  by_cases hs : s = ""
  · subst hs; simp [AgnosRAG.preprocess_text]
  · rw [preprocess_data_of_kept s hk hs]
    have h2 := chain'_stripWs (collapseAux_chain' s.data false)
    refine (List.chain'_map pyLower).mpr (h2.imp ?_)
    intro a b hab
    unfold noTwoWS at hab ⊢
    rw [pyLower_space, pyLower_space]
    exact hab

/-- The normalized output never starts with whitespace. -/
theorem preprocess_head (s : String) :
    ∀ c ∈ (AgnosRAG.preprocess_text s).data.head?, isSpaceChar c = false := by
  by_cases hs : s = ""
  · subst hs; intro c hc; simp [AgnosRAG.preprocess_text] at hc
  · rw [preprocess_data s hs]
    intro c hc
    cases hst : stripWs ((collapseWs s.data).map replaceDisallowed) with
    | nil => rw [hst] at hc; simp at hc
    | cons a t =>
      rw [hst] at hc
      simp only [List.map_cons, List.head?_cons, Option.mem_def, Option.some.injEq] at hc
      subst hc
      rw [pyLower_space]
      exact stripWs_head _ a (by rw [hst]; rfl)

/-- The normalized output never ends with whitespace. -/
theorem preprocess_rev_head (s : String) :
    ∀ c ∈ (AgnosRAG.preprocess_text s).data.reverse.head?, isSpaceChar c = false := by
  by_cases hs : s = ""
  · subst hs; intro c hc; simp [AgnosRAG.preprocess_text] at hc
  · rw [preprocess_data s hs]
    intro c hc
    rw [← List.map_reverse] at hc
    cases hst : (stripWs ((collapseWs s.data).map replaceDisallowed)).reverse with
    | nil => rw [hst] at hc; simp at hc
    | cons a t =>
      rw [hst] at hc
      simp only [List.map_cons, List.head?_cons, Option.mem_def, Option.some.injEq] at hc
      subst hc
      rw [pyLower_space]
      exact stripWs_rev_head _ a (by rw [hst]; rfl)

/-- Every whitespace character of the normalized output is a plain space. -/
theorem preprocess_onlySp (s : String) :
    ∀ c ∈ (AgnosRAG.preprocess_text s).data, isSpaceChar c = true → c = ' ' := by
  by_cases hs : s = ""
  · subst hs; intro c hc; simp [AgnosRAG.preprocess_text] at hc
  · rw [preprocess_data s hs]
    intro c hc hsp
    rcases List.mem_map.mp hc with ⟨d, hd, rfl⟩
    rw [pyLower_space] at hsp
    have hd' := stripWs_subset _ d hd
    rcases List.mem_map.mp hd' with ⟨e, he, rfl⟩
    by_cases hke : keptChar e
    · rw [replaceDisallowed_eq_self hke] at hsp ⊢
      rw [collapseAux_onlySp s.data false he hsp]
      decide
    · rw [replaceDisallowed, if_neg hke] at hsp ⊢
      decide

/-- The normalized output is already lowercased. -/
theorem preprocess_lower_fixed (s : String) :
    ∀ c ∈ (AgnosRAG.preprocess_text s).data, pyLower c = c := by
  by_cases hs : s = ""
  · subst hs; intro c hc; simp [AgnosRAG.preprocess_text] at hc
  · rw [preprocess_data s hs]
    intro c hc
    rcases List.mem_map.mp hc with ⟨d, _, rfl⟩
    exact pyLower_idem d

/-- On an all-kept input, the normalized output is again all-kept. -/
theorem preprocess_kept_of_kept (s : String) (hk : ∀ c ∈ s.data, keptChar c = true) :
    ∀ c ∈ (AgnosRAG.preprocess_text s).data, keptChar c = true := by
  by_cases hs : s = ""
  · subst hs; intro c hc; simp [AgnosRAG.preprocess_text] at hc
  · rw [preprocess_data_of_kept s hk hs]
    intro c hc
    rcases List.mem_map.mp hc with ⟨d, hd, rfl⟩
    apply pyLower_kept
    rcases collapseAux_mem s.data false (stripWs_subset _ d hd) with h | h
    · exact hk d h
    · rw [h]; exact keptChar_space

/-- Idempotence of the normalizer on all-kept inputs. -/
theorem preprocess_idem_of_kept (s : String) (hk : ∀ c ∈ s.data, keptChar c = true) :
    AgnosRAG.preprocess_text (AgnosRAG.preprocess_text s) = AgnosRAG.preprocess_text s := by
  by_cases hs : s = ""
  · subst hs; rfl
  by_cases ht : AgnosRAG.preprocess_text s = ""
  · rw [ht]; rfl
  apply String.ext
  rw [preprocess_data _ ht]
  unfold collapseWs
  rw [(collapseAux_eq_self (AgnosRAG.preprocess_text s).data (preprocess_chain' s hk)
      (preprocess_onlySp s)).1]
  rw [map_replace_eq_self (preprocess_kept_of_kept s hk)]
  rw [stripWs_eq_self _ (preprocess_head s) (preprocess_rev_head s)]
  exact map_eq_self_of_fixed pyLower _ (preprocess_lower_fixed s)


/-! ## Concrete states used by the claim instances

States with an installed vectorizer and matrix are reachable both through
`build_index` and through `load_index` (which installs arbitrary pickled
artifacts); the states below are the minimal ones exhibiting the claimed
behaviours. -/

/-- A built index over one document whose single vocabulary term matches the
query `"ab"` (similarity 1). -/
def c1State : AgnosRAG.State :=
  { vectorizer := some ⟨["ab"]⟩, tfidf_matrix := some [[1]],
    documents := ["ab doc"], metadata := [⟨"u", "t", "c"⟩] }

/-- A built index over two identical rows: both documents score the same
positive similarity against the query `"ab"`. -/
def c2State : AgnosRAG.State :=
  { vectorizer := some ⟨["ab"]⟩, tfidf_matrix := some [[1], [1]],
    documents := ["d0", "d1"],
    metadata := [⟨"u0", "t0", "c0"⟩, ⟨"u1", "t1", "c1"⟩] }

/-- The hit on document 0 of `c2State`. -/
def c2r0 : SearchResult :=
  { score := 1, content := "d0", metadata := ⟨"u0", "t0", "c0"⟩, docIndex := 0 }

/-- The hit on document 1 of `c2State`. -/
def c2r1 : SearchResult :=
  { score := 1, content := "d1", metadata := ⟨"u1", "t1", "c1"⟩, docIndex := 1 }

theorem c2State_search_eval :
    AgnosRAG.search c2State "ab" 2 = .ok [c2r1, c2r0] := by
  have hq : Vectorizer.transform ⟨["ab"]⟩ (AgnosRAG.preprocess_text "ab") = [1] := by decide
  have hsel : selectTopK [1, 1] 2 ["d0", "d1"] [⟨"u0", "t0", "c0"⟩, ⟨"u1", "t1", "c1"⟩] =
      [c2r1, c2r0] := by decide
  simp only [c2State, AgnosRAG.search, hq]
  norm_num [cosineSimVal, dotQ, hsel]

/-! ## Claim C1 -/

/-- C1: the claim states that for every built index, query and `k ≥ 0`,
`search(query, k)` returns at most `k` results and in particular
`search(query, 0)` is empty.  The code violates this at `k = 0`: the slice
`similarities.argsort()[-0:]` is the whole array, so `search(query, 0)`
returns every document with positive similarity.  Here, on a built index
with one document of positive similarity to the query, `search "ab" 0`
returns one result instead of none — contradicting the code's own
"Get top k results" comment and the spec's contract, so this is a code bug
at `k = 0` (for `k ≥ 1` the slice keeps at most `k` indices and the claim's
bound holds). -/
theorem C1_search_k0_returns_all :
    AgnosRAG.search c1State "ab" 0 =
      .ok [{ score := 1, content := "ab doc", metadata := ⟨"u", "t", "c"⟩, docIndex := 0 }] := by
  have hq : Vectorizer.transform ⟨["ab"]⟩ (AgnosRAG.preprocess_text "ab") = [1] := by decide
  have hsel : selectTopK [1] 0 ["ab doc"] [⟨"u", "t", "c"⟩] =
      [{ score := 1, content := "ab doc", metadata := ⟨"u", "t", "c"⟩, docIndex := 0 }] := by
    decide
  simp only [c1State, AgnosRAG.search, hq]
  norm_num [cosineSimVal, dotQ, hsel]

/-! ## Claim C2 -/

/-- The tie order asserted by the claim: descending score with equal scores
in original document order, LOWER index first. -/
def resultDescendsSpec (a b : SearchResult) : Prop :=
  b.score < a.score ∨ (a.score = b.score ∧ a.docIndex < b.docIndex)

instance instDecResultDescendsSpec : DecidableRel resultDescendsSpec := fun a b =>
  inferInstanceAs (Decidable (b.score < a.score ∨ (a.score = b.score ∧ a.docIndex < b.docIndex)))

/-- C2 counterexample: on a built index with two documents of equal positive
similarity — an array size inside numpy's insertion-sort (stable) regime,
where the embedded argsort coincides with the program exactly — `search`
returns the higher document index first (the ascending argsort is
reversed), so the result sequence violates the claimed lower-index-first
tie order. -/
theorem C2_tie_order_counterexample :
    ∃ rs, AgnosRAG.search c2State "ab" 2 = .ok rs ∧
      ¬ List.Pairwise resultDescendsSpec rs :=
  ⟨[c2r1, c2r0], c2State_search_eval, by decide⟩

/-- C2 (amended): for every state, query and `k`, a successful `search`
returns results sorted by similarity score descending with every score
strictly positive.  The claimed lower-index-first stable tie order is
dropped: numpy's default argsort fixes no order for equal values in
general, and where it does (the small-array insertion-sort regime) the
reversal puts the higher index first, as the counterexample shows. -/
theorem C2_sorted_desc_positive (st : AgnosRAG.State) (q : String) (k : ℕ)
    (rs : List SearchResult) (h : AgnosRAG.search st q k = .ok rs) :
    List.Pairwise (fun a b : SearchResult => b.score ≤ a.score) rs ∧
      ∀ r ∈ rs, 0 < r.score := by
  unfold AgnosRAG.search at h
  cases hv : st.vectorizer with
  | none => rw [hv] at h; cases st.tfidf_matrix <;> simp at h
  | some vz =>
    cases hm : st.tfidf_matrix with
    | none => rw [hv, hm] at h; simp at h
    | some mat =>
      rw [hv, hm] at h
      simp only [Except.ok.injEq] at h
      subst h
      constructor
      · refine (selectTopK_pairwise _ _ _ _).imp ?_
        intro a b hab
        rcases hab with hlt | ⟨heq, _⟩
        · exact le_of_lt hlt
        · exact le_of_eq heq.symm
      · exact selectTopK_pos _ _ _ _

/-- C2 witness: the amended theorem applied to the concrete tie state. -/
theorem C2_sorted_desc_positive_witness :
    List.Pairwise (fun a b : SearchResult => b.score ≤ a.score) [c2r1, c2r0] ∧
      ∀ r ∈ [c2r1, c2r0], 0 < r.score :=
  C2_sorted_desc_positive c2State "ab" 2 [c2r1, c2r0] c2State_search_eval

/-! ## Claim C3 -/

/-- C3 counterexample: the normalizer is not idempotent.  `"a@@b"` becomes
`"a  b"` (each stripped character is replaced by a space AFTER whitespace
runs were collapsed), and a second pass collapses the new double space to
`"a b"`. -/
theorem C3_idem_counterexample :
    ¬ (AgnosRAG.preprocess_text (AgnosRAG.preprocess_text "a@@b") =
        AgnosRAG.preprocess_text "a@@b") := by
  decide

/-- C3 (amended): the normalizer is idempotent on every string whose
characters are all kept by the strip step (word characters, whitespace, the
Thai block and the punctuation allow-list); in general a stripped character
becomes a space after run collapsing, so a second pass can differ. -/
theorem C3_idem_on_kept (s : String) (h : ∀ c ∈ s.data, keptChar c = true) :
    AgnosRAG.preprocess_text (AgnosRAG.preprocess_text s) = AgnosRAG.preprocess_text s :=
  preprocess_idem_of_kept s h

/-- C3 witness: idempotence at a concrete all-kept input. -/
theorem C3_idem_on_kept_witness :
    (∀ c ∈ ("Hello  World!" : String).data, keptChar c = true) ∧
      AgnosRAG.preprocess_text (AgnosRAG.preprocess_text "Hello  World!") =
        AgnosRAG.preprocess_text "Hello  World!" :=
  ⟨by decide, C3_idem_on_kept "Hello  World!" (by decide)⟩

/-! ## Claim C4 -/

/-- C4 counterexample: the output of the normalizer can contain a whitespace
run of two spaces: `preprocess_text "a@@b" = "a  b"`, because stripped
characters are replaced by spaces only after whitespace runs are collapsed. -/
theorem C4_ws_run_counterexample :
    ¬ List.Chain' noTwoWS (AgnosRAG.preprocess_text "a@@b").data := by
  have h : AgnosRAG.preprocess_text "a@@b" = "a  b" := by decide
  rw [h, show ("a  b" : String).data = ['a', ' ', ' ', 'b'] from rfl]
  intro hc
  exact (List.chain'_cons.mp ((List.chain'_cons.mp hc).2)).1 ⟨rfl, rfl⟩

/-- C4 (amended): for every input string whose characters are all kept by
the strip step, the normalized output contains no whitespace run longer
than one space (no two adjacent whitespace characters); inputs with
stripped characters can produce longer runs of spaces. -/
theorem C4_no_double_ws_on_kept (s : String) (h : ∀ c ∈ s.data, keptChar c = true) :
    List.Chain' noTwoWS (AgnosRAG.preprocess_text s).data :=
  preprocess_chain' s h

/-- C4 witness: no double whitespace in the normalized form of a concrete
all-kept input. -/
theorem C4_no_double_ws_on_kept_witness :
    (∀ c ∈ (" Mixed \t  Spaces " : String).data, keptChar c = true) ∧
      List.Chain' noTwoWS (AgnosRAG.preprocess_text " Mixed \t  Spaces ").data :=
  ⟨by decide, C4_no_double_ws_on_kept " Mixed \t  Spaces " (by decide)⟩

/-! ## Claim C5 -/

/-- A persisted index whose artifacts are all present but mutually
inconsistent: the matrix has two rows, the document/metadata sequences
length one. -/
def c5Files : SavedIndex :=
  { vectorizerFile := some (some ⟨["ab"]⟩),
    matrixFile := some (some [[1], [1]]),
    metadataFile := some (["d"], [⟨"u", "t", "c"⟩]) }

/-- C5 counterexample: `load_index` performs no shape validation.  Loading
artifacts whose shapes disagree (2 matrix rows, 1 document) succeeds and
installs the inconsistent index, where the claim demands a
`CorruptIndexError`. -/
theorem C5_no_shape_check_counterexample :
    (AgnosRAG.load_index AgnosRAG.initState c5Files).2 = none ∧
      ¬ (((AgnosRAG.load_index AgnosRAG.initState c5Files).1.tfidf_matrix.getD []).length =
          (AgnosRAG.load_index AgnosRAG.initState c5Files).1.documents.length) := by
  decide

/-- C5 (amended): `load_index` fails (with the file-not-found error standing
for the missing-artifact case of the spec's `CorruptIndexError`) exactly when
one of the three artifact files is missing; when all three are present it
installs their contents verbatim, with no shape-consistency validation of
any kind. -/
theorem C5_load_no_validation (st : AgnosRAG.State) (fs : SavedIndex)
    (v : Option Vectorizer) (m : Option (List (List ℚ)))
    (d : List String) (md : List DocMeta) :
    ((AgnosRAG.load_index st fs).2 = none ↔
      fs.vectorizerFile ≠ none ∧ fs.matrixFile ≠ none ∧ fs.metadataFile ≠ none) ∧
    AgnosRAG.load_index st ⟨some v, some m, some (d, md)⟩ =
      ({ vectorizer := v, tfidf_matrix := m, documents := d, metadata := md }, none) := by
  constructor
  · rcases fs with ⟨fv, fm, fd⟩
    cases fv <;> cases fm <;> cases fd <;> simp [AgnosRAG.load_index]
  · rfl

/-! ## Claim C6 -/

/-- C6: on any input corpus of which exactly `M` documents pass the
length-50 filter on the normalized combined title-and-content text, a
successful `build_index` (the claim's hypothesis, taken literally: the call
returned without an exception) stores exactly the `M` normalized texts,
exactly the `M` metadata records (in input order), and a matrix with
exactly `M` rows, row `i` being the transform of document `i` — the three
sequences are index-aligned. -/
theorem C6_build_counts_aligned (st : AgnosRAG.State) (docs : List RawDocument)
    (h : (AgnosRAG.build_index st docs).2 = none) :
    (AgnosRAG.build_index st docs).1.documents = (docs.filter survives).map cleanedOf ∧
    (AgnosRAG.build_index st docs).1.metadata = (docs.filter survives).map metaOf ∧
    (AgnosRAG.build_index st docs).1.documents.length = (docs.filter survives).length ∧
    (AgnosRAG.build_index st docs).1.metadata.length = (docs.filter survives).length ∧
    ∃ vz mat, (AgnosRAG.build_index st docs).1.vectorizer = some vz ∧
      (AgnosRAG.build_index st docs).1.tfidf_matrix = some mat ∧
      mat = ((docs.filter survives).map cleanedOf).map vz.transform ∧
      mat.length = (docs.filter survives).length := by
  by_cases hemp : (keptTexts docs).isEmpty = true
  · exfalso
    unfold AgnosRAG.build_index at h
    rw [if_pos hemp] at h
    simp at h
  · unfold AgnosRAG.build_index at h ⊢
    rw [if_neg hemp] at h ⊢
    cases hfit : Vectorizer.fit (keptTexts docs) with
    | error e => rw [hfit] at h; simp at h
    | ok vz =>
      exact ⟨rfl, rfl, by simp [keptTexts, keptDocs], by simp [keptDocs],
        vz, _, rfl, rfl, rfl, by simp [keptTexts, keptDocs]⟩

/-- A corpus with two surviving documents carrying disjoint terms (two
documents clear the max_df/min_df check, every term has document frequency
1 ≤ 0.8·2, and the vocabulary is non-empty, so the real fit succeeds) and
one too-short document dropped by the length filter. -/
def c6docs : List RawDocument :=
  [{ url := "u1", title := "t1",
     content := "aaaa aaaa aaaa aaaa aaaa aaaa aaaa aaaa aaaa aaaa aaaa aaaa" },
   { url := "u2", title := "t2",
     content := "cccc cccc cccc cccc cccc cccc cccc cccc cccc cccc cccc cccc" },
   { url := "u3", title := "t3", content := "short" }]

/-- C6 witness: the alignment theorem applied to a concrete corpus whose
build genuinely succeeds. -/
theorem C6_build_counts_aligned_witness :
    (AgnosRAG.build_index AgnosRAG.initState c6docs).2 = none ∧
    ((AgnosRAG.build_index AgnosRAG.initState c6docs).1.documents =
      (c6docs.filter survives).map cleanedOf ∧
    (AgnosRAG.build_index AgnosRAG.initState c6docs).1.metadata =
      (c6docs.filter survives).map metaOf ∧
    (AgnosRAG.build_index AgnosRAG.initState c6docs).1.documents.length =
      (c6docs.filter survives).length ∧
    (AgnosRAG.build_index AgnosRAG.initState c6docs).1.metadata.length =
      (c6docs.filter survives).length ∧
    ∃ vz mat, (AgnosRAG.build_index AgnosRAG.initState c6docs).1.vectorizer = some vz ∧
      (AgnosRAG.build_index AgnosRAG.initState c6docs).1.tfidf_matrix = some mat ∧
      mat = ((c6docs.filter survives).map cleanedOf).map vz.transform ∧
      mat.length = (c6docs.filter survives).length) :=
  ⟨by decide, C6_build_counts_aligned AgnosRAG.initState c6docs (by decide)⟩

/-! ## Claim C7 -/

/-- A fit failure is one of the vectorizer's own three errors, never the
empty-corpus error of the length filter. -/
theorem fit_error_ne_emptyCorpus (texts : List String) (e : PyError)
    (h : Vectorizer.fit texts = .error e) : ¬ e = PyError.emptyCorpus := by
  intro he
  subst he
  unfold Vectorizer.fit at h
  split_ifs at h <;> simp at h

/-- A corpus in which exactly one document survives the length filter.  The
real `build_index` then raises sklearn's max_df/min_df-conflict
`ValueError` inside `fit_transform` (`max_df * n = 0.8 < 1 = min_df`). -/
def c7docs : List RawDocument :=
  [{ url := "w", title := "hdr",
     content := "bbbb bbbb bbbb bbbb bbbb bbbb bbbb bbbb bbbb bbbb bbbb bbbb" },
   { url := "w2", title := "h2", content := "tiny" }]

/-- C7 counterexample: a corpus with a surviving document on which
`build_index` nevertheless fails — with exactly one survivor the vectorizer
fit raises the max_df/min_df conflict — so the claim's "when at least one
document survives, build succeeds" is false. -/
theorem C7_one_survivor_build_fails_counterexample :
    (¬ c7docs.filter survives = []) ∧
      (AgnosRAG.build_index AgnosRAG.initState c7docs).2 =
        some PyError.maxDfConflict := by
  decide

/-- C7 (amended): the empty-corpus error is raised exactly when zero
documents survive the minimum-length filter; when documents survive, that
error is not raised, but success is exactly conditioned on the vectorizer
fit succeeding as well — with `min_df = 1`, `max_df = 0.8` the fit itself
raises whenever exactly one document survives, when the surviving texts
contain no tokens, or when the document-frequency cut prunes every term. -/
theorem C7_empty_corpus_iff (st : AgnosRAG.State) (docs : List RawDocument) :
    ((AgnosRAG.build_index st docs).2 = some PyError.emptyCorpus ↔
      docs.filter survives = []) ∧
    ((AgnosRAG.build_index st docs).2 = none ↔
      (¬ docs.filter survives = [] ∧ ∃ vz, Vectorizer.fit (keptTexts docs) = .ok vz)) := by
  by_cases hk : docs.filter survives = []
  · have htrue : (keptTexts docs).isEmpty = true := by
      simp [keptTexts, keptDocs, List.isEmpty_iff, List.map_eq_nil_iff, hk]
    unfold AgnosRAG.build_index
    rw [if_pos htrue]
    simp [hk]
  · have hne : ¬ (keptTexts docs).isEmpty = true := by
      simp only [keptTexts, keptDocs, List.isEmpty_iff, List.map_eq_nil_iff]
      exact hk
    unfold AgnosRAG.build_index
    rw [if_neg hne]
    cases hfit : Vectorizer.fit (keptTexts docs) with
    | error e =>
      have hne2 := fit_error_ne_emptyCorpus (keptTexts docs) e hfit
      simp [hfit, hk, hne2]
    | ok vz => simp [hfit, hk]

/-! ## Claim C8 -/

/-- C8: with no vectorizer or no matrix installed (the unbuilt state),
`search` raises the index-not-built `ValueError` for every query and `k`,
and never returns a result sequence. -/
theorem C8_search_unbuilt_raises (st : AgnosRAG.State) (q : String) (k : ℕ)
    (h : st.vectorizer = none ∨ st.tfidf_matrix = none) :
    AgnosRAG.search st q k = .error PyError.indexNotBuilt := by
  unfold AgnosRAG.search
  rcases h with h | h
  · rw [h]
  · rw [h]; cases st.vectorizer <;> rfl

/-- C8 witness: a fresh `AgnosRAG()` object rejects a query. -/
theorem C8_search_unbuilt_raises_witness :
    (AgnosRAG.initState.vectorizer = none ∨ AgnosRAG.initState.tfidf_matrix = none) ∧
      AgnosRAG.search AgnosRAG.initState "ปวดท้อง" 5 = .error PyError.indexNotBuilt :=
  ⟨.inl rfl, C8_search_unbuilt_raises AgnosRAG.initState "ปวดท้อง" 5 (.inl rfl)⟩

/-! ## Claim C9 -/

/-- C9: when `search` succeeds with an empty result list,
`answer_question` does not fail and returns exactly the fixed
no-information answer with confidence 0 and no sources; when it succeeds
with a non-empty list, the confidence is the top result's score and the
sources are the results in ranked order, one entry each. -/
theorem C9_compose_confidence_sources (st : AgnosRAG.State) (q : String) (k : ℕ)
    (rs : List SearchResult) (h : AgnosRAG.search st q k = .ok rs) :
    (rs = [] → AgnosHealthRAG.answer_question st q k =
      .ok { answer := noInfoText, sources := [], confidence := 0 }) ∧
    (∀ best rest, rs = best :: rest →
      AgnosHealthRAG.answer_question st q k =
        .ok { answer := answerHead ++
                (if 800 < best.content.length then best.content.take 800 ++ "..."
                 else best.content) ++ answerTail,
              sources := rs.map mkSource,
              confidence := best.score }) := by
  unfold AgnosHealthRAG.answer_question
  rw [h]
  constructor
  · rintro rfl; rfl
  · rintro best rest rfl; rfl

/-- A built index with no documents: every search returns the empty list. -/
def c9State : AgnosRAG.State :=
  { vectorizer := some ⟨[]⟩, tfidf_matrix := some [], documents := [], metadata := [] }

/-- C9 witness: the composition theorem applied at an empty result list. -/
theorem C9_compose_confidence_sources_witness :
    AgnosRAG.search c9State "x" 3 = .ok [] ∧
    ((([] : List SearchResult) = [] → AgnosHealthRAG.answer_question c9State "x" 3 =
      .ok { answer := noInfoText, sources := [], confidence := 0 }) ∧
    (∀ best rest, ([] : List SearchResult) = best :: rest →
      AgnosHealthRAG.answer_question c9State "x" 3 =
        .ok { answer := answerHead ++
                (if 800 < best.content.length then best.content.take 800 ++ "..."
                 else best.content) ++ answerTail,
              sources := ([] : List SearchResult).map mkSource,
              confidence := best.score })) :=
  ⟨by rfl, C9_compose_confidence_sources c9State "x" 3 [] (by rfl)⟩

/-! ## Claim C10 -/

/-- C10: a successful `build_index` is a function of the input corpus alone —
two objects in arbitrary prior states (fresh, previously built or loaded)
end up bit-identical after building from the same documents, so nothing of
any previous index survives. -/
theorem C10_build_replaces_state (st st' : AgnosRAG.State) (docs : List RawDocument)
    (h : (AgnosRAG.build_index st docs).2 = none) :
    AgnosRAG.build_index st docs = AgnosRAG.build_index st' docs := by
  by_cases hemp : (keptTexts docs).isEmpty = true
  · exfalso
    unfold AgnosRAG.build_index at h
    rw [if_pos hemp] at h
    simp at h
  · unfold AgnosRAG.build_index at h ⊢
    rw [if_neg hemp] at h
    rw [if_neg hemp, if_neg hemp]
    cases hfit : Vectorizer.fit (keptTexts docs) with
    | error e => rw [hfit] at h; simp at h
    | ok vz => rfl

/-- A two-document corpus with disjoint terms whose build succeeds. -/
def c10docs : List RawDocument :=
  [{ url := "w1", title := "hd1",
     content := "dddd dddd dddd dddd dddd dddd dddd dddd dddd dddd dddd dddd" },
   { url := "w2", title := "hd2",
     content := "eeee eeee eeee eeee eeee eeee eeee eeee eeee eeee eeee eeee" }]

/-- A previously loaded state full of stale artifacts. -/
def c10junk : AgnosRAG.State :=
  { vectorizer := some ⟨["zz"]⟩, tfidf_matrix := some [[5]],
    documents := ["stale"], metadata := [⟨"x", "y", "z"⟩] }

/-- C10 witness: building over a fresh object and over a stale loaded object
gives identical states. -/
theorem C10_build_replaces_state_witness :
    (AgnosRAG.build_index AgnosRAG.initState c10docs).2 = none ∧
      AgnosRAG.build_index AgnosRAG.initState c10docs =
        AgnosRAG.build_index c10junk c10docs :=
  ⟨by decide, C10_build_replaces_state AgnosRAG.initState c10junk c10docs (by decide)⟩
